import Mathlib

/-!
Verification of the slide-generation core of the blackflag_weekly repository.

The development shallowly embeds the relevant JavaScript functions over
`List Char` strings and plain inductive data:

* the narrative planner of `generateSlidesWithMultiAgent` (src/multiAgent.js),
* the commit classifier `categorizeCommit` and file classifier `getFileType`
  (src/index.js) and `getFileCategory` (src/gitAnalysisTools.js),
* the deterministic fallback renderer `generateRawSlides` (src/index.js),
* the sanitizer `sanitizeContent` of `convertSlideDeckToSlidev`
  (src/multiAgent.js),
* the per-segment retry loop `generateSlideWithPipeline` together with the
  per-segment fallback of `generateSlidesWithMultiAgent` (src/multiAgent.js),
* the style registry lookup `getPromptByStyle` (src/prompts/index.js).

JavaScript strings are embedded as `List Char`, JavaScript numbers used by
this code are naturals, and JavaScript `undefined`/`null` is `Option`.
-/

/-- JavaScript strings, embedded as lists of characters. -/
abbrev Str := List Char

/-- JavaScript `String.prototype.toLowerCase`, per-character lowercasing
(the strings the repository inspects are ASCII). -/
def jsToLower (s : Str) : Str := s.map Char.toLower

/-- JavaScript `Array.prototype.slice(start, stop)` for already-clamped
nonnegative indices: the elements with indices `start <= i < stop`. -/
def jsSlice (l : List α) (start stop : Nat) : List α := (l.drop start).take (stop - start)

/-- JavaScript `Math.ceil(a / b)` for natural `a` and positive natural `b`. -/
def jsCeilDiv (a b : Nat) : Nat := (a + b - 1) / b

/-- JavaScript `String.prototype.includes(pat)`: `pat` occurs as a
contiguous substring. -/
def containsPat (pat : Str) : Str → Bool
  | [] => pat.isEmpty
  | c :: rest => pat.isPrefixOf (c :: rest) || containsPat pat rest

/-- The boolean prefix test agrees with the existential description. -/
theorem isPrefixOf_eq_true_iff {pat l : Str} :
    pat.isPrefixOf l = true ↔ ∃ t, pat ++ t = l := by
  induction pat generalizing l with
  | nil => simp [List.isPrefixOf]
  | cons p ps ih =>
    cases l with
    | nil => simp [List.isPrefixOf]
    | cons c cs =>
      simp only [List.isPrefixOf, Bool.and_eq_true, beq_iff_eq, ih, List.cons_append,
        List.cons.injEq]
      constructor
      · rintro ⟨rfl, t, rfl⟩; exact ⟨t, rfl, rfl⟩
      · rintro ⟨t, rfl, rfl⟩; exact ⟨rfl, t, rfl⟩

/-- The substring test agrees with `List.IsInfix`. -/
theorem containsPat_eq_true_iff {pat l : Str} :
    containsPat pat l = true ↔ pat <:+: l := by
  induction l with
  | nil =>
    simp [containsPat, List.isEmpty_iff]
  | cons c rest ih =>
    simp only [containsPat, Bool.or_eq_true, isPrefixOf_eq_true_iff, ih,
      List.infix_cons_iff]
    constructor
    · rintro (⟨t, ht⟩ | h)
      · exact Or.inl ⟨t, ht⟩
      · exact Or.inr h
    · rintro (⟨t, ht⟩ | h)
      · exact Or.inl ⟨t, ht⟩
      · exact Or.inr h

-- =====================================================================
-- Data model
-- =====================================================================

/-- File types assigned by the file classifiers (`getFileType` in
src/index.js and `getFileCategory` in src/gitAnalysisTools.js use the same
five string values). -/
inductive FileType where
  | code
  | configuration
  | testing
  | documentation
  | other
deriving DecidableEq, Repr

/-- One entry of a commit `fileChanges` array (built by `parseFileChanges`
in src/index.js). -/
structure FileChange where
  status : Str
  file : Str
  type : FileType
deriving DecidableEq, Repr

/-- Commit categories returned by `categorizeCommit` (src/index.js). -/
inductive CommitCategory where
  | feature
  | bugfix
  | documentation
  | testing
  | refactoring
  | configuration
  | general
deriving DecidableEq, Repr

/-- The `stats` record attached to an enriched commit. -/
structure CommitStats where
  files : Nat
  insertions : Nat
  deletions : Nat
deriving DecidableEq, Repr

/-- An enriched commit as produced by `getCommitsFromPoint` (src/index.js).
The timestamp is kept opaque as a natural number; `stats` is optional
because `generateRawSlides` defends against a missing record with
optional chaining. -/
structure Commit where
  message : Str
  author : Str
  date : Nat
  body : Option Str
  stats : Option CommitStats
  fileChanges : List FileChange
  changeType : CommitCategory
deriving DecidableEq, Repr

-- =====================================================================
-- Narrative planner (src/multiAgent.js, generateSlidesWithMultiAgent,
-- lines 255-289)
-- =====================================================================

/-- Segment roles of the planned slide groups. -/
inductive SegmentType where
  | title
  | content
  | conclusion
deriving DecidableEq, Repr

/-- Focus labels attached to the planned slide groups. -/
inductive SegmentFocus where
  | introduction
  | early_development
  | development_progress
  | recent_changes
  | summary
deriving DecidableEq, Repr

/-- One planned slide group. The planner never inspects the commits it
slices, so the commit type is a parameter. -/
structure SlideGroup (α : Type) where
  type : SegmentType
  commits : List α
  focus : SegmentFocus
deriving DecidableEq, Repr

/-- Source: `const totalSlides = Math.max(5, Math.min(8, Math.ceil(commits.length / 3)));` -/
def planTotalSlides (n : Nat) : Nat := max 5 (min 8 (jsCeilDiv n 3))

/-- The planning step of `generateSlidesWithMultiAgent`: one title group,
`totalSlides - 2` content groups each holding
`commits.slice(i * commitsPerSlide, Math.min((i + 1) * commitsPerSlide, commits.length))`,
and one conclusion group. -/
def planSlideGroups (commits : List α) : List (SlideGroup α) :=
  let totalSlides := planTotalSlides commits.length
  let commitsPerSlide := jsCeilDiv commits.length (totalSlides - 2)
  let contentGroups := (List.range (totalSlides - 2)).map (fun i =>
    ({ type := SegmentType.content
       commits := jsSlice commits (i * commitsPerSlide)
         (min ((i + 1) * commitsPerSlide) commits.length)
       focus := if i = 0 then SegmentFocus.early_development
         else if i = totalSlides - 3 then SegmentFocus.recent_changes
         else SegmentFocus.development_progress } : SlideGroup α))
  ({ type := SegmentType.title, commits := [], focus := SegmentFocus.introduction } : SlideGroup α)
    :: (contentGroups
      ++ [{ type := SegmentType.conclusion, commits := [], focus := SegmentFocus.summary }])

-- =====================================================================
-- Arithmetic and list lemmas for the planner
-- =====================================================================

/-- Ceiling division multiplied back up covers the numerator. -/
theorem le_mul_jsCeilDiv (n m : Nat) (hm : 0 < m) : n ≤ m * jsCeilDiv n m := by
  unfold jsCeilDiv
  have h := Nat.div_add_mod (n + m - 1) m
  have h2 : (n + m - 1) % m < m := Nat.mod_lt _ hm
  omega

/-- Concatenating the `k`-sized chunks of a list recovers its prefix. -/
theorem flatten_map_drop_take (k : Nat) :
    ∀ (m : Nat) (l : List α),
      ((List.range m).map (fun i => (l.drop (i * k)).take k)).flatten = l.take (m * k) := by
  intro m
  induction m with
  | zero => simp
  | succ m ih =>
    intro l
    rw [List.range_succ, List.map_append, List.flatten_append, ih]
    simp only [List.map_cons, List.map_nil, List.flatten_cons, List.flatten_nil,
      List.append_nil]
    rw [← List.take_add, Nat.succ_mul]

/-- Each content slice of the planner is the plain `k`-chunk at its index. -/
theorem jsSlice_chunk (l : List α) (k i : Nat) :
    jsSlice l (i * k) (min ((i + 1) * k) l.length) = (l.drop (i * k)).take k := by
  unfold jsSlice
  rw [List.take_eq_take]
  rw [List.length_drop]
  have h : (i + 1) * k = i * k + k := by ring
  omega

/-- A concrete enriched commit used to instantiate witnesses. -/
def sampleCommit : Commit :=
  { message := "feat: add login".toList
    author := "dev".toList
    date := 1700000000
    body := none
    stats := some { files := 2, insertions := 10, deletions := 1 }
    fileChanges := [{ status := "M".toList, file := "src/app.js".toList, type := FileType.code }]
    changeType := CommitCategory.feature }

/-- Claim C3: for n >= 1 the planner produces clamp(ceil(n/3), 5, 8)
segments in total, starting with a commitless title segment and ending
with a commitless conclusion segment, each occurring exactly once. -/
theorem planSlideGroups_segment_count (l : List α) (h : 1 ≤ l.length) :
    (planSlideGroups l).length = max 5 (min 8 ((l.length + 2) / 3)) ∧
    (planSlideGroups l).head? =
      some { type := SegmentType.title, commits := [], focus := SegmentFocus.introduction } ∧
    (planSlideGroups l).getLast? =
      some { type := SegmentType.conclusion, commits := [], focus := SegmentFocus.summary } ∧
    (planSlideGroups l).countP (fun g => g.type == SegmentType.title) = 1 ∧
    (planSlideGroups l).countP (fun g => g.type == SegmentType.conclusion) = 1 := by
  refine ⟨?_, ?_, ?_, ?_, ?_⟩
  · have h5 : 5 ≤ planTotalSlides l.length := le_max_left _ _
    have he : planTotalSlides l.length = max 5 (min 8 ((l.length + 2) / 3)) := by
      unfold planTotalSlides jsCeilDiv
      have h32 : l.length + 3 - 1 = l.length + 2 := by omega
      rw [h32]
    simp only [planSlideGroups, List.length_cons, List.length_append, List.length_map,
      List.length_range, List.length_nil]
    omega
  · rfl
  · simp only [planSlideGroups]
    rw [← List.cons_append, List.getLast?_concat]
  · simp [planSlideGroups, List.countP_cons, List.countP_append, List.countP_map,
      Function.comp_def, List.countP_eq_zero]
  · simp [planSlideGroups, List.countP_cons, List.countP_append, List.countP_map,
      Function.comp_def, List.countP_eq_zero]

/-- Witness for C3 at a concrete 24-commit range (where the clamp gives 8). -/
theorem planSlideGroups_segment_count_witness :
    1 ≤ (List.replicate 24 sampleCommit).length ∧
    ((planSlideGroups (List.replicate 24 sampleCommit)).length =
        max 5 (min 8 (((List.replicate 24 sampleCommit).length + 2) / 3)) ∧
      (planSlideGroups (List.replicate 24 sampleCommit)).head? =
        some { type := SegmentType.title, commits := [], focus := SegmentFocus.introduction } ∧
      (planSlideGroups (List.replicate 24 sampleCommit)).getLast? =
        some { type := SegmentType.conclusion, commits := [], focus := SegmentFocus.summary } ∧
      (planSlideGroups (List.replicate 24 sampleCommit)).countP
          (fun g => g.type == SegmentType.title) = 1 ∧
      (planSlideGroups (List.replicate 24 sampleCommit)).countP
          (fun g => g.type == SegmentType.conclusion) = 1) :=
  ⟨by decide, planSlideGroups_segment_count _ (by decide)⟩

/-- Claim C4: the planner's slices, concatenated in segment order, give
back exactly the original commit range (the title and conclusion segments
carry no commits). -/
theorem planSlideGroups_slices_partition (l : List α) :
    ((planSlideGroups l).map (fun g => g.commits)).flatten = l := by
  have hm : 3 ≤ planTotalSlides l.length - 2 := by unfold planTotalSlides; omega
  unfold planSlideGroups
  simp only [List.map_cons, List.map_append, List.map_map, List.flatten_cons,
    List.flatten_append, List.map_nil, List.flatten_nil, List.nil_append, List.append_nil,
    List.flatten_cons]
  rw [List.map_congr_left (g := fun i =>
    (l.drop (i * jsCeilDiv l.length (planTotalSlides l.length - 2))).take
      (jsCeilDiv l.length (planTotalSlides l.length - 2)))]
  · rw [flatten_map_drop_take]
    exact List.take_of_length_le
      (le_mul_jsCeilDiv l.length (planTotalSlides l.length - 2) (by omega))
  · intro i _
    exact jsSlice_chunk l _ i

/-- Claim C5 (amended): for a single-commit range the planner emits 5
segments, namely a commitless title segment, THREE content segments (the
first holding the single commit, the other two empty), and a commitless
conclusion segment. -/
theorem planSlideGroups_singleton (c : α) :
    planSlideGroups [c] =
      [{ type := SegmentType.title, commits := [], focus := SegmentFocus.introduction },
       { type := SegmentType.content, commits := [c], focus := SegmentFocus.early_development },
       { type := SegmentType.content, commits := [], focus := SegmentFocus.development_progress },
       { type := SegmentType.content, commits := [], focus := SegmentFocus.recent_changes },
       { type := SegmentType.conclusion, commits := [], focus := SegmentFocus.summary }] := by
  simp [planSlideGroups, planTotalSlides, jsCeilDiv, jsSlice, List.range_succ]

/-- Counterexample to claim C5 as stated: on a one-commit range the
planner emits THREE content segments, not exactly one. -/
theorem planSlideGroups_singleton_not_one_content :
    (planSlideGroups [sampleCommit]).countP (fun g => g.type == SegmentType.content) = 3 ∧
    ¬ (planSlideGroups [sampleCommit]).countP (fun g => g.type == SegmentType.content) = 1 := by
  decide

-- =====================================================================
-- Commit classifier (src/index.js, categorizeCommit, lines 296-310) and
-- file classifier getFileType (src/index.js, lines 287-294)
-- =====================================================================

/-- JavaScript `String.prototype.endsWith`. -/
def jsEndsWith (pat s : Str) : Bool := pat.reverse.isPrefixOf s.reverse

/-- Source, src/index.js `getFileType`: extension and substring tests in
source order (the `.test.js` test is dead code, because the `.js` test
precedes it). -/
def getFileType (filepath : Str) : FileType :=
  if jsEndsWith ".md".toList filepath then FileType.documentation
  else if jsEndsWith ".js".toList filepath || jsEndsWith ".ts".toList filepath then FileType.code
  else if jsEndsWith ".json".toList filepath then FileType.configuration
  else if jsEndsWith ".test.js".toList filepath || containsPat "test".toList filepath then
    FileType.testing
  else if containsPat "README".toList filepath then FileType.documentation
  else FileType.other

/-- Source, src/index.js `categorizeCommit`: message-prefix tests on the
lowercased message, then file-type fallbacks, in source order. -/
def categorizeCommit (message : Str) (fileChanges : List FileChange) : CommitCategory :=
  let msg := jsToLower message
  let fileTypes := fileChanges.map (fun c => c.type)
  if "feat".toList.isPrefixOf msg then CommitCategory.feature
  else if "fix".toList.isPrefixOf msg then CommitCategory.bugfix
  else if "docs".toList.isPrefixOf msg then CommitCategory.documentation
  else if "test".toList.isPrefixOf msg then CommitCategory.testing
  else if "refactor".toList.isPrefixOf msg then CommitCategory.refactoring
  else if fileTypes.contains FileType.testing then CommitCategory.testing
  else if fileTypes.contains FileType.documentation then CommitCategory.documentation
  else if fileTypes.contains FileType.configuration then CommitCategory.configuration
  else CommitCategory.general

/-- Claim C6: the classifier is a pure function of (message, fileChanges)
(determinism is intrinsic to the embedding), and the `fix` message prefix
decides the category as bugfix no matter what the file types are. -/
theorem categorizeCommit_fix_dominates (message : Str) (fileChanges : List FileChange)
    (h : "fix".toList.isPrefixOf (jsToLower message) = true) :
    categorizeCommit message fileChanges = CommitCategory.bugfix := by
  have hfeat : "feat".toList.isPrefixOf (jsToLower message) = false := by
    obtain ⟨t, ht⟩ := isPrefixOf_eq_true_iff.mp h
    rw [← ht]
    rfl
  unfold categorizeCommit
  simp only [h, hfeat, Bool.false_eq_true, if_false, if_true]

/-- Witness for C6: the message "fix: x" over a documentation-only change
set is classified bugfix (not docs). -/
theorem categorizeCommit_fix_dominates_witness :
    "fix".toList.isPrefixOf (jsToLower "fix: x".toList) = true ∧
    categorizeCommit "fix: x".toList
      [{ status := "M".toList, file := "README.md".toList, type := FileType.documentation }] =
      CommitCategory.bugfix :=
  ⟨by decide, categorizeCommit_fix_dominates _ _ (by decide)⟩

-- =====================================================================
-- File classifier getFileCategory (src/gitAnalysisTools.js, lines 399-417)
-- =====================================================================

/-- Node `path.basename` for posix paths: the final path component,
ignoring trailing slashes. -/
def basenameChars (p : Str) : Str :=
  let q := (p.reverse.dropWhile (fun c => c == '/')).reverse
  (q.reverse.takeWhile (fun c => c != '/')).reverse

/-- Node `path.extname` for posix paths: from the last dot of the final
path component to its end, empty when there is no dot or when the only
dot is the leading character of the component. -/
def extnameChars (p : Str) : Str :=
  let b := basenameChars p
  match b.reverse.dropWhile (fun c => c != '.') with
  | [] => []
  | [_] => []
  | _ :: _ :: _ => '.' :: (b.reverse.takeWhile (fun c => c != '.')).reverse

/-- The code-extension list of `getFileCategory`. -/
def codeExtensions : List Str :=
  [".js".toList, ".ts".toList, ".jsx".toList, ".tsx".toList, ".py".toList, ".rb".toList,
   ".go".toList, ".java".toList, ".c".toList, ".cpp".toList, ".cs".toList]

/-- Source, src/gitAnalysisTools.js `getFileCategory`: lowercased extension
and basename, then the four category tests in source order. -/
def getFileCategory (filepath : Str) : FileType :=
  let ext := jsToLower (extnameChars filepath)
  let filename := jsToLower (basenameChars filepath)
  if ext = ".md".toList ∨ ext = ".txt".toList ∨ ext = ".rst".toList then
    FileType.documentation
  else if ext = ".json".toList ∨ ext = ".yaml".toList ∨ ext = ".yml".toList ∨
      ext = ".toml".toList ∨ containsPat "config".toList filename = true ∨
      containsPat "package".toList filename = true then
    FileType.configuration
  else if containsPat "test".toList filename = true ∨ containsPat "spec".toList filename = true ∨
      containsPat "__tests__".toList filepath = true then
    FileType.testing
  else if ext ∈ codeExtensions then FileType.code
  else FileType.other

/-- The file-classification rule exactly as claim C7 states it: documentation
also for any filename containing "readme", and the test category keyed on
the whole path as well as the filename. Stated for comparison with
`getFileCategory`; the code disagrees with it. -/
def fileCategoryClaimC7 (filepath : Str) : FileType :=
  let ext := jsToLower (extnameChars filepath)
  let filename := jsToLower (basenameChars filepath)
  if ext = ".md".toList ∨ ext = ".txt".toList ∨ ext = ".rst".toList ∨
      containsPat "readme".toList filename = true then
    FileType.documentation
  else if ext = ".json".toList ∨ ext = ".yaml".toList ∨ ext = ".yml".toList ∨
      ext = ".toml".toList ∨ containsPat "config".toList filename = true ∨
      containsPat "package".toList filename = true then
    FileType.configuration
  else if containsPat "test".toList filepath = true ∨ containsPat "test".toList filename = true ∨
      containsPat "spec".toList filepath = true ∨ containsPat "spec".toList filename = true then
    FileType.testing
  else if ext ∈ codeExtensions then FileType.code
  else FileType.other

/-- Counterexample to claim C7 as stated: the path "README" (filename
containing "readme", no extension) is classified `other` by the code, not
`documentation` as the claim requires. -/
theorem getFileCategory_readme_counterexample :
    getFileCategory "README".toList = FileType.other ∧
    fileCategoryClaimC7 "README".toList = FileType.documentation ∧
    getFileCategory "README".toList ≠ fileCategoryClaimC7 "README".toList := by
  decide

/-- Amended description of `getFileCategory`, written from the corrected
claim: documentation only by extension; configuration by extension or a
filename containing "config"/"package"; testing by a filename containing
"test"/"spec" or a path containing "__tests__"; code by the fixed source
extension list; other otherwise. -/
def fileCategorySpecC7 (filepath : Str) : FileType :=
  let ext := jsToLower (extnameChars filepath)
  let filename := jsToLower (basenameChars filepath)
  if ext ∈ [".md".toList, ".txt".toList, ".rst".toList] then
    FileType.documentation
  else if ext ∈ [".json".toList, ".yaml".toList, ".yml".toList, ".toml".toList] ∨
      containsPat "config".toList filename = true ∨
      containsPat "package".toList filename = true then
    FileType.configuration
  else if containsPat "test".toList filename = true ∨
      containsPat "spec".toList filename = true ∨
      containsPat "__tests__".toList filepath = true then
    FileType.testing
  else if ext ∈ codeExtensions then FileType.code
  else FileType.other

/-- Claim C7 (amended): the code classifier agrees, on every path, with the
amended rule set `fileCategorySpecC7`. -/
theorem getFileCategory_eq_spec (filepath : Str) :
    getFileCategory filepath = fileCategorySpecC7 filepath := by
  unfold getFileCategory fileCategorySpecC7
  simp only [List.mem_cons, List.not_mem_nil, or_false, or_assoc]

-- =====================================================================
-- Style registry (src/prompts/index.js, getPromptByStyle, lines 35-41)
-- =====================================================================

/-- The four registered prompt styles of `promptStyles`. -/
inductive PromptStyle where
  | defaultStyle
  | executive
  | technical
  | retrospective
deriving DecidableEq, Repr

/-- Values a JavaScript property read on `promptStyles` can produce: an own
property (a registered prompt function), a property inherited from
`Object.prototype` (object literals keep the default prototype, so keys
such as "constructor" or "toString" yield truthy built-in values), or
`undefined`. -/
inductive JsLookup where
  | ownProp (s : PromptStyle)
  | protoProp (name : Str)
  | undef
deriving DecidableEq, Repr

/-- The own properties of the `promptStyles` object literal, in source
order. -/
def promptStylesOwn : List (Str × PromptStyle) :=
  [("default".toList, PromptStyle.defaultStyle),
   ("executive".toList, PromptStyle.executive),
   ("technical".toList, PromptStyle.technical),
   ("retrospective".toList, PromptStyle.retrospective)]

/-- Property names inherited from `Object.prototype` by every object
literal; reading any of them yields a truthy value. -/
def objectPrototypeKeys : List Str :=
  ["constructor".toList, "hasOwnProperty".toList, "isPrototypeOf".toList,
   "propertyIsEnumerable".toList, "toLocaleString".toList, "toString".toList,
   "valueOf".toList, "__defineGetter__".toList, "__defineSetter__".toList,
   "__lookupGetter__".toList, "__lookupSetter__".toList, "__proto__".toList]

/-- The JavaScript property read `promptStyles[key]`: an own property when
the key is registered, otherwise the `Object.prototype` member of that
name when one exists, otherwise `undefined`. -/
def promptStylesGet (key : Str) : JsLookup :=
  match promptStylesOwn.find? (fun kv => kv.1 == key) with
  | some kv => JsLookup.ownProp kv.2
  | none =>
    if objectPrototypeKeys.contains key then JsLookup.protoProp key else JsLookup.undef

/-- JavaScript truthiness of a property-read result: every function or
object is truthy; only `undefined` is falsy here. -/
def JsLookup.truthy : JsLookup → Bool
  | JsLookup.undef => false
  | _ => true

/-- Source, src/prompts/index.js `getPromptByStyle`:
`const style = styleName?.toLowerCase(); if (!style || !promptStyles[style]) return promptStyles.default; return promptStyles[style];`.
A `none` argument models a null/undefined style name. -/
def getPromptByStyle (styleName : Option Str) : JsLookup :=
  match styleName with
  | none => JsLookup.ownProp PromptStyle.defaultStyle
  | some sn =>
    let style := jsToLower sn
    if style.isEmpty then JsLookup.ownProp PromptStyle.defaultStyle
    else if (promptStylesGet style).truthy then promptStylesGet style
    else JsLookup.ownProp PromptStyle.defaultStyle

/-- Counterexample to claim C10 as stated: "constructor" is not a
registered style, yet the lookup returns the inherited
`Object.prototype.constructor` value instead of the default prompt. -/
theorem getPromptByStyle_constructor_counterexample :
    getPromptByStyle (some "constructor".toList) = JsLookup.protoProp "constructor".toList ∧
    getPromptByStyle (some "constructor".toList) ≠ JsLookup.ownProp PromptStyle.defaultStyle ∧
    (promptStylesOwn.find? (fun kv => kv.1 == "constructor".toList)) = none := by
  decide

/-- Description of `getPromptByStyle` from the amended claim C10: the
default prompt for a missing, empty, or unknown (lowercased) name, the
registered prompt for a registered name, but the inherited
`Object.prototype` member for one of its property names. -/
def getPromptByStyleSpecC10 (styleName : Option Str) : JsLookup :=
  match styleName with
  | none => JsLookup.ownProp PromptStyle.defaultStyle
  | some s =>
    let low := jsToLower s
    match promptStylesOwn.find? (fun kv => kv.1 == low) with
    | some kv => JsLookup.ownProp kv.2
    | none =>
      if low ≠ [] ∧ low ∈ objectPrototypeKeys then JsLookup.protoProp low
      else JsLookup.ownProp PromptStyle.defaultStyle

/-- Claim C10 (amended): the registry lookup never throws and agrees, for
every possible style-name argument, with the amended description
`getPromptByStyleSpecC10`. -/
theorem getPromptByStyle_eq_spec (styleName : Option Str) :
    getPromptByStyle styleName = getPromptByStyleSpecC10 styleName := by
  cases styleName with
  | none => rfl
  | some s =>
    simp only [getPromptByStyle, getPromptByStyleSpecC10]
    by_cases hempty : jsToLower s = []
    · rw [hempty]
      rfl
    · cases hfind : promptStylesOwn.find? (fun kv => kv.1 == jsToLower s) with
      | none =>
        by_cases hproto : jsToLower s ∈ objectPrototypeKeys
        · have hc : objectPrototypeKeys.contains (jsToLower s) = true := by
            simpa [List.contains] using List.elem_iff.mpr hproto
          simp [hempty, hfind, promptStylesGet, hc, hproto, List.isEmpty_iff,
            JsLookup.truthy]
        · have hc : objectPrototypeKeys.contains (jsToLower s) = false := by
            rw [Bool.eq_false_iff]
            intro hcon
            exact hproto (List.elem_iff.mp (by simpa [List.contains] using hcon))
          simp [hempty, hfind, promptStylesGet, hc, hproto, List.isEmpty_iff,
            JsLookup.truthy]
      | some kv =>
        simp [hempty, hfind, promptStylesGet, List.isEmpty_iff, JsLookup.truthy]

-- =====================================================================
-- Deterministic fallback renderer (src/index.js, generateRawSlides,
-- lines 312-416) and its helper categorizeWork (lines 713-725)
-- =====================================================================

/-- Source, src/index.js `categorizeWork`: group the commits by their
`changeType` into an object; JavaScript objects keep first-insertion key
order, modeled as an association list. -/
def addToCategory (acc : List (CommitCategory × List Commit)) (cat : CommitCategory)
    (c : Commit) : List (CommitCategory × List Commit) :=
  if acc.any (fun kv => kv.1 == cat) then
    acc.map (fun kv => if kv.1 == cat then (kv.1, kv.2 ++ [c]) else kv)
  else acc ++ [(cat, [c])]

def categorizeWork (commits : List Commit) : List (CommitCategory × List Commit) :=
  commits.foldl (fun acc c => addToCategory acc c.changeType c) []

/-- The optional-chained read `workByCategory.x?.length`-style lookup:
the commit list registered under a category, or `[]` when the key is
absent (in which case every `.length > 0` test in the source is false). -/
def lookupCategory (w : List (CommitCategory × List Commit)) (cat : CommitCategory) :
    List Commit :=
  match w.find? (fun kv => kv.1 == cat) with
  | some kv => kv.2
  | none => []

/-- JavaScript `[...new Set(xs)]`: deduplication keeping the first
occurrence of each element, in order. -/
def uniqueFirst (l : List Str) : List Str :=
  l.foldl (fun acc a => if a ∈ acc then acc else acc ++ [a]) []

/-- One `---`-delimited section of the markdown document built by
`generateRawSlides`, carrying the data interpolated into that section of
the template string. Dates stay opaque (the source formats them with
`toLocaleDateString`). -/
inductive RawSection where
  | titleStory (firstDate lastDate : Option Nat) (commitCount : Nat)
      (collaborative : Bool)
  | mission (isFeatureDevelopment hadBugfix manyCommits : Bool)
      (totalFiles totalInsertions totalDeletions : Nat)
  | journey (entries : List (Str × Option Nat))
  | challenges (bugfixes : List Commit)
  | outcome (singleCommit fewCommits : Bool)
      (categories : List (CommitCategory × Nat × Nat))
  | whatsNext (isFeatureDevelopment hadChallenges : Bool) (contributors : List Str)
deriving DecidableEq, Repr

/-- Source, src/index.js `generateRawSlides`: the fallback renderer builds
a markdown template of `---`-separated sections: title, mission, journey,
a challenges section only when a bugfix commit exists, outcome, and a
closing section. On an empty commit list
`Object.keys(workByCategory).reduce(...)` (the unused `mainWorkType`
computation) throws a TypeError, modeled as `none`; every other input
produces a document. -/
def generateRawSlides (commits : List Commit) : Option (List RawSection) :=
  if commits.isEmpty then none
  else
    let totalFiles := commits.foldl (fun s c => s + ((c.stats.map (fun st => st.files)).getD 0)) 0
    let totalInsertions :=
      commits.foldl (fun s c => s + ((c.stats.map (fun st => st.insertions)).getD 0)) 0
    let totalDeletions :=
      commits.foldl (fun s c => s + ((c.stats.map (fun st => st.deletions)).getD 0)) 0
    let contributors := uniqueFirst (commits.map (fun c => c.author))
    let workByCategory := categorizeWork commits
    let isFeatureDevelopment := 0 < (lookupCategory workByCategory CommitCategory.feature).length
    let hadChallenges := 0 < (lookupCategory workByCategory CommitCategory.bugfix).length
    some (
      [RawSection.titleStory ((commits.getLast?).map (fun c => c.date))
          ((commits.head?).map (fun c => c.date)) commits.length (1 < contributors.length),
       RawSection.mission isFeatureDevelopment hadChallenges (3 < commits.length)
          totalFiles totalInsertions totalDeletions,
       RawSection.journey (commits.reverse.map (fun c =>
          (jsToLower c.message, c.stats.map (fun st => st.files))))]
      ++ (if hadChallenges then
            [RawSection.challenges ((lookupCategory workByCategory CommitCategory.bugfix).take 2)]
          else [])
      ++ [RawSection.outcome (commits.length == 1) (commits.length < 3)
            (workByCategory.map (fun kv =>
              (kv.1, kv.2.length,
                kv.2.foldl (fun s c => s + ((c.stats.map (fun st => st.files)).getD 0)) 0))),
          RawSection.whatsNext isFeatureDevelopment hadChallenges contributors])

/-- Claim C1: for every non-empty commit range the fallback renderer
succeeds (it makes no external calls and throws on no such input) and the
resulting document has at least 3 sections (it always has 5 or 6). -/
theorem generateRawSlides_total_min_three (commits : List Commit) (h : commits ≠ []) :
    ∃ doc, generateRawSlides commits = some doc ∧ 3 ≤ doc.length := by
  unfold generateRawSlides
  rw [if_neg (by simpa [List.isEmpty_iff] using h)]
  refine ⟨_, rfl, ?_⟩
  by_cases hc : 0 < (lookupCategory (categorizeWork commits) CommitCategory.bugfix).length
  · simp [hc]
  · simp [hc]

/-- Witness for C1 at a single-commit range. -/
theorem generateRawSlides_total_min_three_witness :
    ([sampleCommit] : List Commit) ≠ [] ∧
    ∃ doc, generateRawSlides [sampleCommit] = some doc ∧ 3 ≤ doc.length :=
  ⟨by decide, generateRawSlides_total_min_three [sampleCommit] (by decide)⟩

-- =====================================================================
-- Per-segment pipeline with retries (src/multiAgent.js,
-- generateSlideWithPipeline lines 140-246, caller loop lines 320-352)
-- =====================================================================

/-- A structured slide as produced by the content/formatter agents and by
the per-segment fallback of `generateSlidesWithMultiAgent`. -/
structure GenSlide where
  title : Str
  subtitle : Option Str
  layout : Str
  content : Str
  right_content : Option Str
  notes : Option Str
deriving DecidableEq, Repr

/-- Outcome of one attempt of the generate/format/validate round trip, the
three external capability calls of one loop iteration: the formatted slide
when validation passes, `invalid` when the validator reports
`isValid: false`, and `err` when any of the three steps throws. -/
inductive AttemptOutcome where
  | valid (s : GenSlide)
  | invalid
  | err
deriving DecidableEq, Repr

/-- What `generateSlideWithPipeline` can do as seen by its caller: return
a slide, throw, or fall off the `while` loop and return `undefined`. -/
inductive PipeResult where
  | ok (s : GenSlide)
  | thrown
  | undef
deriving DecidableEq, Repr

/-- Source: `const maxRetries = 3;`. -/
def maxRetries : Nat := 3

/-- The `while (attempt < maxRetries)` loop of `generateSlideWithPipeline`,
with the attempt outcomes supplied by an oracle indexed by the attempt
counter at the start of the iteration. The `invalid` branch mirrors the
source exactly: the try block increments `attempt` and, at
`attempt === maxRetries`, throws -- but that throw is caught by the same
try's catch clause, which increments `attempt` again and only rethrows
when the incremented counter equals `maxRetries` (it is then 4, so it
never does). The `err` branch is the catch clause reached by an exception
from the capability calls themselves. The fuel only bounds recursion and
exceeds the possible number of iterations, since `attempt` strictly
increases and the loop stops at 3. -/
def pipelineLoop (oracle : Nat → AttemptOutcome) : Nat → Nat → PipeResult
  | 0, _ => PipeResult.undef
  | fuel + 1, attempt =>
    if attempt < maxRetries then
      match oracle attempt with
      | AttemptOutcome.valid s => PipeResult.ok s
      | AttemptOutcome.invalid =>
        let a1 := attempt + 1
        if a1 = maxRetries then
          let a2 := a1 + 1
          if a2 = maxRetries then PipeResult.thrown
          else pipelineLoop oracle fuel a2
        else pipelineLoop oracle fuel a1
      | AttemptOutcome.err =>
        let a1 := attempt + 1
        if a1 = maxRetries then PipeResult.thrown
        else pipelineLoop oracle fuel a1
    else PipeResult.undef

/-- Source, `generateSlideWithPipeline`: run the retry loop from
`let attempt = 0`. Fuel 5 is unreachable by the at most 4 iterations. -/
def generateSlideWithPipeline (oracle : Nat → AttemptOutcome) : PipeResult :=
  pipelineLoop oracle 5 0

/-- An entry of the caller array `slides`: a slide object, or the
JavaScript `undefined` value pushed when `generateSlideWithPipeline`
returns without a value. -/
inductive DeckEntry where
  | slide (s : GenSlide)
  | jsUndefined
deriving DecidableEq, Repr

/-- Source, src/multiAgent.js lines 338-351: the "safe fallback slide" the
caller pushes when `generateSlideWithPipeline` threw. `i` is the 0-based
segment index (the template interpolates `i` itself into the content
title), `totalCommits` the length of the whole commit range. -/
def fallbackSlide (group : SlideGroup Commit) (i totalCommits : Nat) : GenSlide :=
  { title :=
      match group.type with
      | SegmentType.title => "Development Overview".toList
      | SegmentType.conclusion => "Summary".toList
      | SegmentType.content => ("Development Progress " ++ Nat.repr i).toList
    subtitle := none
    layout := "default".toList
    content :=
      match group.type with
      | SegmentType.title =>
        ("# Development Journey\n\n🚀 **" ++ Nat.repr totalCommits ++
          " commits** analyzed\n\n📊 Generated with AI analysis").toList
      | SegmentType.conclusion =>
        "# Summary\n\n✅ **Development completed**\n\n📈 **Progress made across multiple areas**".toList
      | SegmentType.content =>
        ("# Development Update\n\n📝 **Commits processed**: " ++
          Nat.repr group.commits.length ++
          "\n\n🔧 **Work completed** in this phase").toList
    right_content := none
    notes := some "Fallback slide due to generation error".toList }

/-- The deck entries one iteration of the caller segment loop (lines
320-352) appends to `slides` for one segment, as a function of the
pipeline result. On `ok` the slide is pushed. On `thrown` the catch
pushes the fallback slide. On `undef` the caller first executes
`slides.push(slide)` with `slide === undefined`, then crashes on
`slide.title` while updating `previousSlides`; the surrounding catch then
pushes the fallback slide as well, leaving TWO entries. -/
def processSegment (group : SlideGroup Commit) (i totalCommits : Nat) :
    PipeResult → List DeckEntry
  | PipeResult.ok s => [DeckEntry.slide s]
  | PipeResult.thrown => [DeckEntry.slide (fallbackSlide group i totalCommits)]
  | PipeResult.undef =>
    [DeckEntry.jsUndefined, DeckEntry.slide (fallbackSlide group i totalCommits)]

/-- An oracle on which validation fails on every attempt. -/
def allInvalid : Nat → AttemptOutcome := fun _ => AttemptOutcome.invalid

/-- An oracle on which every capability call throws. -/
def allErr : Nat → AttemptOutcome := fun _ => AttemptOutcome.err

/-- A concrete content segment holding one commit. -/
def sampleContentGroup : SlideGroup Commit :=
  { type := SegmentType.content
    commits := [sampleCommit]
    focus := SegmentFocus.early_development }

/-- Claim C2 (code divergence): when validation fails on all 3 attempts,
`generateSlideWithPipeline` neither returns a slide nor throws -- its own
catch swallows the exhaustion throw (the counter reaches 4, so the
rethrow guard fails) and the loop exits returning `undefined`; the caller
then stores TWO entries for the segment, one of them the JavaScript
`undefined` value. By contrast, when the capability itself throws on all
3 attempts the error propagates and the segment gets exactly one
fallback slide, as the spec describes. -/
theorem pipeline_all_invalid_two_entries :
    generateSlideWithPipeline allInvalid = PipeResult.undef ∧
    processSegment sampleContentGroup 1 1 (generateSlideWithPipeline allInvalid) =
      [DeckEntry.jsUndefined, DeckEntry.slide (fallbackSlide sampleContentGroup 1 1)] ∧
    (processSegment sampleContentGroup 1 1 (generateSlideWithPipeline allInvalid)).length = 2 ∧
    generateSlideWithPipeline allErr = PipeResult.thrown ∧
    (processSegment sampleContentGroup 1 1 (generateSlideWithPipeline allErr)).length = 1 := by
  refine ⟨rfl, rfl, rfl, rfl, rfl⟩

-- =====================================================================
-- Sanitizer (src/multiAgent.js, convertSlideDeckToSlidev's sanitizeContent,
-- lines 379-393)
-- =====================================================================

/-- The character class of the JavaScript regex `\s` (which coincides with
the set trimmed by `String.prototype.trim`). -/
def jsWhitespaceChars : List Char :=
  [' ', '\t', '\n', Char.ofNat 0xb, Char.ofNat 0xc, '\r',
   Char.ofNat 0xa0, Char.ofNat 0x1680,
   Char.ofNat 0x2000, Char.ofNat 0x2001, Char.ofNat 0x2002, Char.ofNat 0x2003,
   Char.ofNat 0x2004, Char.ofNat 0x2005, Char.ofNat 0x2006, Char.ofNat 0x2007,
   Char.ofNat 0x2008, Char.ofNat 0x2009, Char.ofNat 0x200a,
   Char.ofNat 0x2028, Char.ofNat 0x2029, Char.ofNat 0x202f, Char.ofNat 0x205f,
   Char.ofNat 0x3000, Char.ofNat 0xfeff]

def isJsWhitespace (c : Char) : Bool := jsWhitespaceChars.contains c

/-- The character class `[\u0000-\u001f\u007f-\u009f]` removed by the
control-character replacement. -/
def isCtrlChar (c : Char) : Bool :=
  c.toNat ≤ 0x1f || (0x7f ≤ c.toNat && c.toNat ≤ 0x9f)

/-- The regex class `[a-zA-Z]`. -/
def isAsciiLetterChar (c : Char) : Bool :=
  ('a' ≤ c && c ≤ 'z') || ('A' ≤ c && c ≤ 'Z')

/-- The regex class `[a-zA-Z0-9]`. -/
def isAlnumChar (c : Char) : Bool :=
  isAsciiLetterChar c || ('0' ≤ c && c ≤ '9')

/-- JavaScript `str.replace(pat, rep)` with a global literal pattern:
scan left to right, replace each occurrence, and continue after the
replaced text. The fuel starts at the string length, which the scan never
exhausts since every step consumes at least one character. -/
def replaceAllAux (pat rep : Str) : Nat → Str → Str
  | _, [] => []
  | 0, l => l
  | fuel + 1, c :: rest =>
    if pat.isPrefixOf (c :: rest) && !pat.isEmpty then
      rep ++ replaceAllAux pat rep fuel (rest.drop (pat.length - 1))
    else c :: replaceAllAux pat rep fuel rest

def replaceAll (pat rep l : Str) : Str := replaceAllAux pat rep l.length l

/-- Match of the regex `\*[a-zA-Z][a-zA-Z0-9]*\s` anchored at the start of
the string, returning the length of the (greedy) match. Backtracking
cannot produce another match here because `[a-zA-Z0-9]` and `\s` are
disjoint. -/
def starWordMatchLen : Str → Option Nat
  | c0 :: c :: rest =>
    if c0 = '*' ∧ isAsciiLetterChar c = true ∧
        ((rest.dropWhile isAlnumChar).head?.any isJsWhitespace) = true then
      some (2 + (rest.takeWhile isAlnumChar).length + 1)
    else none
  | _ => none

/-- The replacement `.replace(/\*[a-zA-Z][a-zA-Z0-9]*\s/g, '**')`. -/
def replaceStarWordAux : Nat → Str → Str
  | _, [] => []
  | 0, l => l
  | fuel + 1, c :: rest =>
    match starWordMatchLen (c :: rest) with
    | some k => '*' :: '*' :: replaceStarWordAux fuel ((c :: rest).drop k)
    | none => c :: replaceStarWordAux fuel rest

def replaceStarWord (l : Str) : Str := replaceStarWordAux l.length l

/-- Match of the regex `\*[a-zA-Z][a-zA-Z0-9]*$` spanning the whole
string. -/
def isStarWordEnd : Str → Bool
  | c0 :: c :: rest => (c0 == '*') && isAsciiLetterChar c && rest.all isAlnumChar
  | _ => false

/-- The replacement `.replace(/\*[a-zA-Z][a-zA-Z0-9]*$/g, '**')`: at most
one match, reaching the end of the string. -/
def replaceStarEnd : Str → Str
  | [] => []
  | c :: rest =>
    if isStarWordEnd (c :: rest) then ['*', '*'] else c :: replaceStarEnd rest

/-- JavaScript `String.prototype.trimStart`. -/
def jsTrimStart (l : Str) : Str := l.dropWhile isJsWhitespace

/-- JavaScript `String.prototype.trimEnd`. -/
def jsTrimEnd (l : Str) : Str := (l.reverse.dropWhile isJsWhitespace).reverse

/-- JavaScript `String.prototype.trim`. -/
def jsTrim (l : Str) : Str := jsTrimEnd (jsTrimStart l)

/-- Source, src/multiAgent.js `sanitizeContent`: `if (!content) return ''`,
then the replacement chain `&lt;` to `<`, `&gt;` to `>`, `&amp;` to `&`,
`<<:` removed, control characters removed, `\*[a-zA-Z][a-zA-Z0-9]*\s` and
then `\*[a-zA-Z][a-zA-Z0-9]*$` each rewritten to `**`, and a final
`.trim()`. -/
def sanitizeContent (content : Str) : Str :=
  if content.isEmpty then []
  else
    jsTrim (replaceStarEnd (replaceStarWord
      ((replaceAll "<<:".toList [] (replaceAll "&amp;".toList "&".toList
        (replaceAll "&gt;".toList ">".toList
          (replaceAll "&lt;".toList "<".toList content)))).filter
        (fun c => !isCtrlChar c))))

/-- Claim C9 (code divergence): the sanitizer does NOT preserve paired
emphasis containing a space: in `**Bold Text**` the slice `*Bold ` (from
the second asterisk on) matches `\*[a-zA-Z][a-zA-Z0-9]*\s` and is
rewritten to `**`, so the output is `***Text**`. -/
theorem sanitizeContent_breaks_paired_bold :
    sanitizeContent "**Bold Text**".toList = "***Text**".toList ∧
    sanitizeContent "**Bold Text**".toList ≠ "**Bold Text**".toList := by
  decide

/-- Scanning test for a match of `\*[a-zA-Z][a-zA-Z0-9]*\s` anywhere in
the string. -/
def hasStarSpace : Str → Bool
  | [] => false
  | c :: rest => (starWordMatchLen (c :: rest)).isSome || hasStarSpace rest

/-- Scanning test for a match of `\*[a-zA-Z][a-zA-Z0-9]*$` anywhere in
the string. -/
def hasStarEnd : Str → Bool
  | [] => false
  | c :: rest => isStarWordEnd (c :: rest) || hasStarEnd rest

/-- Content already free of every pattern the sanitizer rewrites: no HTML
entities, no YAML merge key, no control characters, and no stray
asterisk-word pattern (mid-string or at the end). -/
def cleanContent (l : Str) : Bool :=
  !containsPat "&lt;".toList l && !containsPat "&gt;".toList l &&
  !containsPat "&amp;".toList l && !containsPat "<<:".toList l &&
  l.all (fun c => !isCtrlChar c) && !hasStarSpace l && !hasStarEnd l

/-- A literal replacement leaves a string without occurrences unchanged. -/
theorem replaceAllAux_eq_self {pat rep : Str} :
    ∀ (fuel : Nat) (l : Str), containsPat pat l = false →
      replaceAllAux pat rep fuel l = l := by
  intro fuel
  induction fuel with
  | zero => intro l _; cases l <;> rfl
  | succ fuel ih =>
    intro l h
    cases l with
    | nil => rfl
    | cons c rest =>
      rw [containsPat, Bool.or_eq_false_iff] at h
      rw [replaceAllAux, if_neg (by simp [h.1]), ih rest h.2]

theorem replaceAll_eq_self {pat rep l : Str} (h : containsPat pat l = false) :
    replaceAll pat rep l = l :=
  replaceAllAux_eq_self l.length l h

/-- The star-space replacement leaves a match-free string unchanged. -/
theorem replaceStarWordAux_eq_self :
    ∀ (fuel : Nat) (l : Str), hasStarSpace l = false →
      replaceStarWordAux fuel l = l := by
  intro fuel
  induction fuel with
  | zero => intro l _; cases l <;> rfl
  | succ fuel ih =>
    intro l h
    cases l with
    | nil => rfl
    | cons c rest =>
      rw [hasStarSpace, Bool.or_eq_false_iff] at h
      have hnone : starWordMatchLen (c :: rest) = none := by
        cases hm : starWordMatchLen (c :: rest) with
        | none => rfl
        | some k => rw [hm] at h; exact absurd h.1 (by simp)
      rw [replaceStarWordAux, hnone, ih rest h.2]

theorem replaceStarWord_eq_self {l : Str} (h : hasStarSpace l = false) :
    replaceStarWord l = l :=
  replaceStarWordAux_eq_self l.length l h

/-- The star-end replacement leaves a match-free string unchanged. -/
theorem replaceStarEnd_eq_self :
    ∀ (l : Str), hasStarEnd l = false → replaceStarEnd l = l := by
  intro l
  induction l with
  | nil => intro _; rfl
  | cons c rest ih =>
    intro h
    rw [hasStarEnd, Bool.or_eq_false_iff] at h
    rw [replaceStarEnd, if_neg (by simp [h.1]), ih h.2]

/-- On clean content the sanitizer only trims. -/
theorem sanitizeContent_eq_trim {l : Str} (h : cleanContent l = true) (hne : l ≠ []) :
    sanitizeContent l = jsTrim l := by
  simp only [cleanContent, Bool.and_eq_true, Bool.not_eq_true'] at h
  obtain ⟨⟨⟨⟨⟨⟨h1, h2⟩, h3⟩, h4⟩, h5⟩, h6⟩, h7⟩ := h
  rw [sanitizeContent, if_neg (by simpa [List.isEmpty_iff] using hne)]
  rw [replaceAll_eq_self h1, replaceAll_eq_self h2, replaceAll_eq_self h3,
    replaceAll_eq_self h4, List.filter_eq_self.mpr (by simpa using h5),
    replaceStarWord_eq_self h6, replaceStarEnd_eq_self l h7]

/-- A prefix is an infix. -/
theorem infix_of_pre {u l : List α} (h : u <+: l) : u <:+: l := by
  obtain ⟨t, rfl⟩ := h
  exact ⟨[], t, rfl⟩

/-- A suffix is an infix. -/
theorem infix_of_suf {u l : List α} (h : u <:+ l) : u <:+: l := by
  obtain ⟨s, rfl⟩ := h
  exact ⟨s, [], by simp⟩

/-- The head surviving a `dropWhile` fails the predicate. -/
theorem dropWhile_head_false {p : α → Bool} {l : List α} {a : α} {t : List α}
    (h : l.dropWhile p = a :: t) : p a = false := by
  have := List.head_dropWhile_not p l (by simp [h])
  simpa [h] using this

/-- Dropping while a predicate holds is idempotent. -/
theorem dropWhile_dropWhile (p : α → Bool) (l : List α) :
    (l.dropWhile p).dropWhile p = l.dropWhile p := by
  cases h : l.dropWhile p with
  | nil => rfl
  | cons a t => rw [List.dropWhile_cons, if_neg (by simp [dropWhile_head_false h])]

/-- Decomposition of a string into its right-trimmed part and the trimmed
whitespace tail. -/
theorem jsTrimEnd_append (m : Str) :
    jsTrimEnd m ++ (m.reverse.takeWhile isJsWhitespace).reverse = m := by
  unfold jsTrimEnd
  rw [← List.reverse_append, List.takeWhile_append_dropWhile, List.reverse_reverse]

theorem jsTrimEnd_pre (m : Str) : jsTrimEnd m <+: m :=
  ⟨(m.reverse.takeWhile isJsWhitespace).reverse, jsTrimEnd_append m⟩

theorem jsTrim_inner (l : Str) : jsTrim l <:+: l := by
  unfold jsTrim
  exact (infix_of_pre (jsTrimEnd_pre (jsTrimStart l))).trans
    (infix_of_suf (List.dropWhile_suffix isJsWhitespace))

/-- JavaScript whitespace characters are not in `[a-zA-Z0-9]`. -/
theorem not_alnum_of_jsWhitespace {c : Char} (h : isJsWhitespace c = true) :
    isAlnumChar c = false := by
  have hmem : c ∈ jsWhitespaceChars := by
    have : jsWhitespaceChars.elem c = true := by simpa [isJsWhitespace, List.contains] using h
    exact List.elem_iff.mp this
  fin_cases hmem <;> decide

/-- Dropping through a block that wholly satisfies the predicate. -/
theorem dropWhile_append_all {p : α → Bool} :
    ∀ (cs x : List α), (∀ a ∈ cs, p a = true) → (cs ++ x).dropWhile p = x.dropWhile p := by
  intro cs
  induction cs with
  | nil => intro x _; rfl
  | cons a cs ih =>
    intro x h
    rw [List.cons_append, List.dropWhile_cons, if_pos (h a (by simp))]
    exact ih x (fun b hb => h b (by simp [hb]))

/-- An occurrence of the mid-string breaking pattern
`\*[a-zA-Z][a-zA-Z0-9]*\s` somewhere in a string. -/
def StarSpaceOccur (l : Str) : Prop :=
  ∃ a cs w, isAsciiLetterChar a = true ∧ (∀ x ∈ cs, isAlnumChar x = true) ∧
    isJsWhitespace w = true ∧ ('*' :: a :: (cs ++ [w])) <:+: l

/-- An occurrence of the end-anchored breaking pattern
`\*[a-zA-Z][a-zA-Z0-9]*$`. -/
def StarEndOccur (l : Str) : Prop :=
  ∃ a cs, isAsciiLetterChar a = true ∧ (∀ x ∈ cs, isAlnumChar x = true) ∧
    ('*' :: a :: cs) <:+ l

/-- An anchored match yields an occurrence at the front. -/
theorem starSpaceOccur_of_matchLen {l : Str} {k : Nat}
    (h : starWordMatchLen l = some k) : StarSpaceOccur l := by
  match l with
  | [] => simp [starWordMatchLen] at h
  | [c0] => simp [starWordMatchLen] at h
  | c0 :: c :: rest =>
    rw [starWordMatchLen] at h
    by_cases hc : c0 = '*' ∧ isAsciiLetterChar c = true ∧
        ((rest.dropWhile isAlnumChar).head?.any isJsWhitespace) = true
    · obtain ⟨hstar, hletter, hws⟩ := hc
      cases hd : rest.dropWhile isAlnumChar with
      | nil => rw [hd] at hws; simp at hws
      | cons w tail =>
        rw [hd] at hws
        have hw : isJsWhitespace w = true := by simpa using hws
        refine ⟨c, rest.takeWhile isAlnumChar, w, hletter,
          (fun x hx => List.mem_takeWhile_imp hx), hw, ?_⟩
        refine infix_of_pre ⟨tail, ?_⟩
        have hrest : rest.takeWhile isAlnumChar ++ [w] ++ tail = rest := by
          rw [List.append_assoc, List.singleton_append, ← hd,
            List.takeWhile_append_dropWhile]
        rw [hstar, List.cons_append, List.cons_append, hrest]
    · rw [if_neg hc] at h
      exact absurd h (by simp)

/-- An occurrence anchored at the front yields a match. -/
theorem matchLen_isSome_of_front {a : Char} {cs : Str} {w : Char} {t : Str}
    (ha : isAsciiLetterChar a = true) (hcs : ∀ x ∈ cs, isAlnumChar x = true)
    (hw : isJsWhitespace w = true) :
    (starWordMatchLen ('*' :: a :: (cs ++ [w] ++ t))).isSome = true := by
  have hd : (cs ++ [w] ++ t).dropWhile isAlnumChar = w :: t := by
    rw [List.append_assoc, List.singleton_append, dropWhile_append_all cs _ hcs,
      List.dropWhile_cons, if_neg (by simp [not_alnum_of_jsWhitespace hw])]
  rw [starWordMatchLen, if_pos ⟨rfl, ha, by rw [hd]; simpa using hw⟩]
  rfl

/-- The scanning test is equivalent to the existence of an occurrence. -/
theorem hasStarSpace_iff {l : Str} : hasStarSpace l = true ↔ StarSpaceOccur l := by
  induction l with
  | nil =>
    simp only [hasStarSpace, Bool.false_eq_true, false_iff]
    rintro ⟨a, cs, w, _, _, _, hinf⟩
    have hlen := hinf.sublist.length_le
    simp at hlen
  | cons c rest ih =>
    rw [hasStarSpace, Bool.or_eq_true]
    constructor
    · rintro (hm | hm)
      · obtain ⟨k, hk⟩ := Option.isSome_iff_exists.mp hm
        exact starSpaceOccur_of_matchLen hk
      · obtain ⟨a, cs, w, ha, hcs, hw, hinf⟩ := ih.mp hm
        exact ⟨a, cs, w, ha, hcs, hw, hinf.trans (List.infix_cons_iff.mpr
          (Or.inr (List.infix_rfl)))⟩
    · rintro ⟨a, cs, w, ha, hcs, hw, hinf⟩
      rcases List.infix_cons_iff.mp hinf with hpre | hinf2
      · obtain ⟨t, ht⟩ := hpre
        left
        have heq : c :: rest = '*' :: a :: (cs ++ [w] ++ t) := by
          rw [← ht]
          simp
        rw [heq]
        exact matchLen_isSome_of_front ha hcs hw
      · exact Or.inr (ih.mpr ⟨a, cs, w, ha, hcs, hw, hinf2⟩)

/-- The end-scanning test is equivalent to the existence of an occurrence. -/
theorem hasStarEnd_iff {l : Str} : hasStarEnd l = true ↔ StarEndOccur l := by
  induction l with
  | nil =>
    simp only [hasStarEnd, Bool.false_eq_true, false_iff]
    rintro ⟨a, cs, _, _, hsuf⟩
    have hlen := hsuf.sublist.length_le
    simp at hlen
  | cons c rest ih =>
    rw [hasStarEnd, Bool.or_eq_true]
    constructor
    · rintro (hm | hm)
      · cases rest with
        | nil => simp [isStarWordEnd] at hm
        | cons c1 rest2 =>
          rw [isStarWordEnd, Bool.and_eq_true, Bool.and_eq_true] at hm
          obtain ⟨⟨hc0, hc1⟩, hall⟩ := hm
          have hc0eq : c = '*' := by simpa using hc0
          refine ⟨c1, rest2, hc1, List.all_eq_true.mp hall, ?_⟩
          rw [hc0eq]
      · obtain ⟨a, cs, ha, hcs, hsuf⟩ := ih.mp hm
        exact ⟨a, cs, ha, hcs, hsuf.trans (List.suffix_cons c rest)⟩
    · rintro ⟨a, cs, ha, hcs, hsuf⟩
      rcases List.suffix_cons_iff.mp hsuf with heq | hsuf2
      · left
        rw [← heq, isStarWordEnd]
        simp [ha, List.all_eq_true.mpr hcs]
      · exact Or.inr (ih.mpr ⟨a, cs, ha, hcs, hsuf2⟩)

/-- Substring-freeness is inherited by infixes. -/
theorem containsPat_false_of_inner {pat u l : Str} (hu : u <:+: l)
    (h : containsPat pat l = false) : containsPat pat u = false := by
  rw [Bool.eq_false_iff] at h ⊢
  intro hc
  exact h (containsPat_eq_true_iff.mpr ((containsPat_eq_true_iff.mp hc).trans hu))

/-- A character-wise property is inherited by infixes. -/
theorem all_of_inner {p : Char → Bool} {u l : Str} (hu : u <:+: l)
    (h : l.all p = true) : u.all p = true := by
  rw [List.all_eq_true] at h ⊢
  exact fun x hx => h x (hu.sublist.subset hx)

/-- Freeness from the mid-string pattern is inherited by infixes. -/
theorem hasStarSpace_false_of_inner {u l : Str} (hu : u <:+: l)
    (h : hasStarSpace l = false) : hasStarSpace u = false := by
  rw [Bool.eq_false_iff] at h ⊢
  intro hc
  obtain ⟨a, cs, w, ha, hcs, hw, hinf⟩ := hasStarSpace_iff.mp hc
  exact h (hasStarSpace_iff.mpr ⟨a, cs, w, ha, hcs, hw, hinf.trans hu⟩)

/-- Trimming cannot create an end-anchored pattern: a match at the new end
was, in the untrimmed string, either already at the end or followed by a
trimmed whitespace character, which would have made a mid-string match. -/
theorem hasStarEnd_false_jsTrim {l : Str} (hsp : hasStarSpace l = false)
    (hse : hasStarEnd l = false) : hasStarEnd (jsTrim l) = false := by
  rw [Bool.eq_false_iff] at hsp hse ⊢
  intro hc
  obtain ⟨a, cs, ha, hcs, hsuf⟩ := hasStarEnd_iff.mp hc
  set m := jsTrimStart l with hm
  have hmsuf : m <:+ l := List.dropWhile_suffix _
  have hjt : jsTrim l = jsTrimEnd m := by rw [jsTrim]
  set ws := (m.reverse.takeWhile isJsWhitespace).reverse with hws
  have hdecomp : jsTrimEnd m ++ ws = m := jsTrimEnd_append m
  have hwsall : ∀ x ∈ ws, isJsWhitespace x = true := by
    intro x hx
    rw [hws] at hx
    exact List.mem_takeWhile_imp (List.mem_reverse.mp hx)
  cases hwsc : ws with
  | nil =>
    have hteq : jsTrimEnd m = m := by
      conv_rhs => rw [← hdecomp, hwsc]
      rw [List.append_nil]
    apply hse
    refine hasStarEnd_iff.mpr ⟨a, cs, ha, hcs, ?_⟩
    rw [hjt, hteq] at hsuf
    exact hsuf.trans hmsuf
  | cons w ws2 =>
    apply hsp
    have hwspace : isJsWhitespace w = true := hwsall w (by rw [hwsc]; simp)
    rw [hjt] at hsuf
    obtain ⟨u, hu⟩ := hsuf
    refine hasStarSpace_iff.mpr ⟨a, cs, w, ha, hcs, hwspace, ?_⟩
    refine (List.IsInfix.trans ?_ (infix_of_suf hmsuf))
    refine ⟨u, ws2, ?_⟩
    have hstep : u ++ ('*' :: a :: (cs ++ [w])) ++ ws2 =
        (u ++ ('*' :: a :: cs)) ++ (w :: ws2) := by
      simp
    rw [hstep, hu, ← hwsc, hdecomp]

/-- Left-trimming is idempotent across a full trim. -/
theorem jsTrimStart_jsTrim (l : Str) : jsTrimStart (jsTrim l) = jsTrim l := by
  cases h : jsTrim l with
  | nil => rfl
  | cons a t =>
    have hpre : jsTrim l <+: jsTrimStart l := jsTrimEnd_pre _
    rw [h] at hpre
    obtain ⟨u, hu⟩ := hpre
    rw [jsTrimStart] at hu
    have ha : isJsWhitespace a = false :=
      dropWhile_head_false (by rw [← hu, List.cons_append])
    rw [jsTrimStart, List.dropWhile_cons, if_neg (by simp [ha])]

theorem jsTrimEnd_idem (m : Str) : jsTrimEnd (jsTrimEnd m) = jsTrimEnd m := by
  unfold jsTrimEnd
  rw [List.reverse_reverse, dropWhile_dropWhile]

theorem jsTrim_idem (l : Str) : jsTrim (jsTrim l) = jsTrim l := by
  conv_lhs => rw [jsTrim, jsTrimStart_jsTrim l]
  rw [jsTrim, jsTrimEnd_idem]

/-- Trimming clean content leaves it clean. -/
theorem cleanContent_jsTrim {l : Str} (h : cleanContent l = true) :
    cleanContent (jsTrim l) = true := by
  simp only [cleanContent, Bool.and_eq_true, Bool.not_eq_true'] at h ⊢
  obtain ⟨⟨⟨⟨⟨⟨h1, h2⟩, h3⟩, h4⟩, h5⟩, h6⟩, h7⟩ := h
  have hinf := jsTrim_inner l
  exact ⟨⟨⟨⟨⟨⟨containsPat_false_of_inner hinf h1, containsPat_false_of_inner hinf h2⟩,
    containsPat_false_of_inner hinf h3⟩, containsPat_false_of_inner hinf h4⟩,
    all_of_inner hinf h5⟩, hasStarSpace_false_of_inner hinf h6⟩,
    hasStarEnd_false_jsTrim h6 h7⟩

/-- Claim C8: on content free of every breaking pattern the sanitizer only
trims, trimming preserves that freeness, and trimming is idempotent - so
applying the sanitizer twice gives exactly the output of applying it
once. -/
theorem sanitizeContent_idem_on_clean (l : Str) (h : cleanContent l = true) :
    sanitizeContent (sanitizeContent l) = sanitizeContent l := by
  by_cases hne : l = []
  · subst hne
    rfl
  · rw [sanitizeContent_eq_trim h hne]
    by_cases htne : jsTrim l = []
    · rw [htne]
      rfl
    · rw [sanitizeContent_eq_trim (cleanContent_jsTrim h) htne, jsTrim_idem]

/-- Witness for C8 on a concrete clean string with paired emphasis and
surrounding whitespace. -/
theorem sanitizeContent_idem_on_clean_witness :
    cleanContent "  Hello **World**  ".toList = true ∧
    sanitizeContent (sanitizeContent "  Hello **World**  ".toList) =
      sanitizeContent "  Hello **World**  ".toList :=
  ⟨by decide, sanitizeContent_idem_on_clean _ (by decide)⟩
